import Mathlib

/-!
# Verification of the over-engineered square-root solver (`src/squareroot.py`)

Shallow embedding of the core of `squareroot.py` over exact rationals `ℚ`
(standing for Python real arithmetic).  The Python generator
`_generate_approximations` is embedded as a fuel-indexed recursive function
that eagerly collects the yielded sequence; Python exceptions
(`ValueError`, `RuntimeError`, `ZeroDivisionError`) become an explicit
error type threaded through `Except`.  Logging and timing are incidental
instrumentation with no effect on values and are not modelled.
-/

set_option autoImplicit false

namespace SquareRoot

/-- The exceptions the core can raise.
`invalidInput` is Python's `ValueError` from the constructor,
`noResult` is the `RuntimeError` from `solve`,
`zeroDivision` is Python's `ZeroDivisionError` from `number / x_n`. -/
inductive PyError where
  | invalidInput
  | noResult
  | zeroDivision
  deriving DecidableEq, Repr

/-- State of `ConvergenceMonitor` (`squareroot.py` lines 33-42):
target precision, iteration count, and the optional previous approximation
(`None` before the first `update`). -/
structure ConvergenceMonitor where
  target_precision : ℚ
  iteration_count : ℕ
  previous_approximation : Option ℚ
  deriving DecidableEq, Repr

/-- `ConvergenceMonitor.__init__`: count 0, previous approximation unset. -/
def ConvergenceMonitor.fresh (target_precision : ℚ) : ConvergenceMonitor :=
  ⟨target_precision, 0, none⟩

/-- `ConvergenceMonitor.update` (lines 44-63): increments the count; on the
first call records the value and returns `false`; afterwards compares
`|current - previous|` with the target precision, records the value, and
returns the comparison.  Returns the boolean together with the new state. -/
def ConvergenceMonitor.update (m : ConvergenceMonitor)
    (current_approximation : ℚ) : Bool × ConvergenceMonitor :=
  match m.previous_approximation with
  | none =>
      (false,
       ⟨m.target_precision, m.iteration_count + 1, some current_approximation⟩)
  | some prev =>
      (decide (|current_approximation - prev| < m.target_precision),
       ⟨m.target_precision, m.iteration_count + 1, some current_approximation⟩)

/-- Stored fields of `OverEngineeredSquareRootSolver` (lines 77-79). -/
structure OverEngineeredSquareRootSolver where
  number : ℚ
  max_iterations : ℕ
  initial_guess : ℚ
  deriving DecidableEq, Repr

/-- `OverEngineeredSquareRootSolver.__init__` (lines 72-79): rejects
`number < 0` with `ValueError`; otherwise stores `number`,
`max_iterations`, and the given guess, defaulting to `number / 2`. -/
def construct (number : ℚ) (max_iterations : ℕ) (initial_guess : Option ℚ) :
    Except PyError OverEngineeredSquareRootSolver :=
  if number < 0 then .error .invalidInput
  else .ok ⟨number, max_iterations, initial_guess.getD (number / 2)⟩

/-- `_generate_approximations` (lines 83-106), with the loop counter turned
into fuel.  Each iteration computes the Newton update
`x_next = 0.5 * (x_n + number / x_n)` — raising `ZeroDivisionError` when
`x_n = 0`, exactly where Python's division fails — feeds it to the monitor,
and on convergence yields `x_next` and stops; otherwise yields `x_next` and
continues with it.  The eager list is the full yielded sequence; an
exception discards it, as the exception propagates to the draining caller. -/
def generate_approximations (number : ℚ) :
    ℕ → ℚ → ConvergenceMonitor → Except PyError (List ℚ)
  | 0, _, _ => .ok []
  | fuel + 1, x_n, monitor =>
      if x_n = 0 then .error .zeroDivision
      else
        let x_next := (1 / 2) * (x_n + number / x_n)
        let step := monitor.update x_next
        if step.1 then .ok [x_next]
        else
          match generate_approximations number fuel x_next step.2 with
          | .ok rest => .ok (x_next :: rest)
          | .error e => .error e

/-- `solve` (lines 108-126): drains the sequence produced with a fresh
monitor at the default precision `1e-10`, keeping the last element;
raises `RuntimeError` when the sequence was empty. -/
def solve (s : OverEngineeredSquareRootSolver) : Except PyError ℚ :=
  match generate_approximations s.number s.max_iterations s.initial_guess
      (ConvergenceMonitor.fresh (1 / 10 ^ 10)) with
  | .error e => .error e
  | .ok approximations =>
      match approximations.getLast? with
      | none => .error .noResult
      | some final_approximation => .ok final_approximation

/-- Folding `update` over a list of observations, keeping only the state:
the shape in which `generate_approximations` mutates the monitor. -/
def ConvergenceMonitor.updateAll (m : ConvergenceMonitor) (vs : List ℚ) :
    ConvergenceMonitor :=
  vs.foldl (fun st v => (st.update v).2) m

/-- One generator iteration from a monitor that has not yet seen a value:
the first `update` never converges, so the Newton iterate is yielded and
the run continues with it. -/
lemma gen_step_none (number x x_next p : ℚ) (c : ℕ) (fuel : ℕ)
    (rest : List ℚ) (hx : x ≠ 0)
    (hnext : (1 / 2) * (x + number / x) = x_next)
    (hrest : generate_approximations number fuel x_next
      ⟨p, c + 1, some x_next⟩ = .ok rest) :
    generate_approximations number (fuel + 1) x ⟨p, c, none⟩ =
      .ok (x_next :: rest) := by
  simp only [generate_approximations, if_neg hx, ConvergenceMonitor.update,
    hnext]
  simp [hrest]

/-- One non-converging generator iteration: the iterate differs from the
previous observation by at least the precision, so it is yielded as a
non-final element and the run continues with it. -/
lemma gen_step_far (number x x_next p q : ℚ) (c : ℕ) (fuel : ℕ)
    (rest : List ℚ) (hx : x ≠ 0)
    (hnext : (1 / 2) * (x + number / x) = x_next)
    (hfar : ¬ |x_next - q| < p)
    (hrest : generate_approximations number fuel x_next
      ⟨p, c + 1, some x_next⟩ = .ok rest) :
    generate_approximations number (fuel + 1) x ⟨p, c, some q⟩ =
      .ok (x_next :: rest) := by
  simp only [generate_approximations, if_neg hx, ConvergenceMonitor.update,
    hnext]
  simp [hfar, hrest]

/-- One converging generator iteration: the iterate is within the precision
of the previous observation, so it is yielded and the sequence stops. -/
lemma gen_step_conv (number x x_next p q : ℚ) (c : ℕ) (fuel : ℕ)
    (hx : x ≠ 0) (hnext : (1 / 2) * (x + number / x) = x_next)
    (hnear : |x_next - q| < p) :
    generate_approximations number (fuel + 1) x ⟨p, c, some q⟩ =
      .ok [x_next] := by
  simp only [generate_approximations, if_neg hx, ConvergenceMonitor.update,
    hnext]
  simp [hnear]

/-- Generator unfolding, converging case, for an arbitrary monitor. -/
lemma gen_succ_true (number x : ℚ) (fuel : ℕ) (m : ConvergenceMonitor)
    (hx : x ≠ 0)
    (h : (m.update ((1 / 2) * (x + number / x))).1 = true) :
    generate_approximations number (fuel + 1) x m =
      .ok [(1 / 2) * (x + number / x)] := by
  simp only [generate_approximations, if_neg hx]
  rw [if_pos h]

/-- Generator unfolding, non-converging case, for an arbitrary monitor:
the iterate is consed onto the rest of the run. -/
lemma gen_succ_false (number x : ℚ) (fuel : ℕ) (m : ConvergenceMonitor)
    (hx : x ≠ 0)
    (h : (m.update ((1 / 2) * (x + number / x))).1 = false) :
    generate_approximations number (fuel + 1) x m =
      Except.map (fun rest => (1 / 2) * (x + number / x) :: rest)
        (generate_approximations number fuel ((1 / 2) * (x + number / x))
          (m.update ((1 / 2) * (x + number / x))).2) := by
  simp only [generate_approximations, if_neg hx]
  have hcond : ¬((m.update ((1 / 2) * (x + number / x))).1 = true) := by
    rw [h]; exact Bool.false_ne_true
  rw [if_neg hcond]
  cases hrec : generate_approximations number fuel
      ((1 / 2) * (x + number / x))
      (m.update ((1 / 2) * (x + number / x))).2 with
  | ok rest => simp [Except.map]
  | error e => simp [Except.map]

/-- `solve` unfolded on a successful generator run with a known last
element. -/
lemma solve_eq_of_gen (s : OverEngineeredSquareRootSolver) (l : List ℚ)
    (r : ℚ)
    (hgen : generate_approximations s.number s.max_iterations s.initial_guess
      (ConvergenceMonitor.fresh (1 / 10 ^ 10)) = .ok l)
    (hlast : l.getLast? = some r) : solve s = .ok r := by
  unfold solve
  rw [hgen]
  simp [hlast]

/-- `solve` unfolded on a generator run that raised. -/
lemma solve_eq_of_gen_error (s : OverEngineeredSquareRootSolver)
    (e : PyError)
    (hgen : generate_approximations s.number s.max_iterations s.initial_guess
      (ConvergenceMonitor.fresh (1 / 10 ^ 10)) = .error e) :
    solve s = .error e := by
  unfold solve
  rw [hgen]

/-- **C2.** Construction fails with `InvalidInput` exactly when
`number < 0`; for non-negative `number` it succeeds and stores `number`,
the given `max_iterations`, and the initial guess (`number / 2` when none
is given). -/
theorem construct_spec (number : ℚ) (max_iterations : ℕ)
    (initial_guess : Option ℚ) :
    (construct number max_iterations initial_guess = .error .invalidInput ↔
      number < 0) ∧
    (0 ≤ number →
      construct number max_iterations initial_guess =
        .ok ⟨number, max_iterations, initial_guess.getD (number / 2)⟩) := by
  constructor
  · constructor
    · intro h
      by_contra hneg
      simp [construct, hneg] at h
    · intro h
      simp [construct, h]
  · intro h
    simp [construct, not_lt.mpr h]

/-- Witness for `construct_spec` at `number = -1` and `number = 9`. -/
theorem construct_spec_witness :
    (construct (-1) 1000 none = .error .invalidInput ↔ (-1 : ℚ) < 0) ∧
    ((0 : ℚ) ≤ 9 ∧ construct 9 1000 none = .ok ⟨9, 1000, 9 / 2⟩) :=
  ⟨(construct_spec (-1) 1000 none).1,
   by decide, (construct_spec 9 1000 none).2 (by decide)⟩

/-- **C3.** On a fresh monitor the first `update v` returns `false` for
every `v`, records `v` as the previous approximation, and brings the
iteration count to 1. -/
theorem first_update_spec (target_precision v : ℚ) :
    (ConvergenceMonitor.fresh target_precision).update v =
      (false, ⟨target_precision, 1, some v⟩) :=
  rfl

/-- **C4.** Once the monitor has seen a value `a` (so its previous
approximation is `some a`), `update b` returns `true` iff
`|b - a| < target_precision`, increments the count, and records `b`. -/
theorem subsequent_update_spec (m : ConvergenceMonitor) (a b : ℚ)
    (h : m.previous_approximation = some a) :
    ((m.update b).1 = true ↔ |b - a| < m.target_precision) ∧
    (m.update b).2 =
      ⟨m.target_precision, m.iteration_count + 1, some b⟩ := by
  simp [ConvergenceMonitor.update, h]

/-- Witness for `subsequent_update_spec`: after `update 5` on a fresh
monitor of precision `1/10`, `update (51/10)` compares `1/10 < 1/10`. -/
theorem subsequent_update_spec_witness :
    ((ConvergenceMonitor.fresh (1 / 10)).update 5).2.previous_approximation
        = some 5 ∧
    (((((ConvergenceMonitor.fresh (1 / 10)).update 5).2.update (51 / 10)).1
        = true ↔
      |(51 / 10 : ℚ) - 5| <
        ((ConvergenceMonitor.fresh (1 / 10)).update 5).2.target_precision) ∧
     ((((ConvergenceMonitor.fresh (1 / 10)).update 5).2.update (51 / 10)).2 =
       ⟨((ConvergenceMonitor.fresh (1 / 10)).update 5).2.target_precision,
        ((ConvergenceMonitor.fresh (1 / 10)).update 5).2.iteration_count + 1,
        some (51 / 10)⟩)) :=
  ⟨by decide,
   subsequent_update_spec (((ConvergenceMonitor.fresh (1 / 10)).update 5).2)
     5 (51 / 10) (by decide)⟩

/-- **C10.** Monitor invariant: every `update v` — first or subsequent —
increments the iteration count by exactly one, leaves the previous
approximation equal to `some v`, keeps the target precision, and raises
nothing (`update` is total); hence after any sequence of calls on a fresh
monitor the count equals the number of calls and the previous
approximation is the last argument (`none` when there was no call). -/
theorem update_invariant :
    (∀ (m : ConvergenceMonitor) (v : ℚ),
      (m.update v).2.iteration_count = m.iteration_count + 1 ∧
      (m.update v).2.previous_approximation = some v ∧
      (m.update v).2.target_precision = m.target_precision) ∧
    (∀ (p : ℚ) (vs : List ℚ),
      ((ConvergenceMonitor.fresh p).updateAll vs).iteration_count =
        vs.length ∧
      ((ConvergenceMonitor.fresh p).updateAll vs).previous_approximation =
        vs.getLast? ∧
      ((ConvergenceMonitor.fresh p).updateAll vs).target_precision = p) := by
  have step : ∀ (m : ConvergenceMonitor) (v : ℚ),
      (m.update v).2.iteration_count = m.iteration_count + 1 ∧
      (m.update v).2.previous_approximation = some v ∧
      (m.update v).2.target_precision = m.target_precision := by
    intro m v
    cases h : m.previous_approximation <;>
      simp [ConvergenceMonitor.update, h]
  refine ⟨step, ?_⟩
  have general : ∀ (vs : List ℚ) (m : ConvergenceMonitor),
      (m.updateAll vs).iteration_count = m.iteration_count + vs.length ∧
      (m.updateAll vs).previous_approximation =
        (vs.getLast?).or m.previous_approximation ∧
      (m.updateAll vs).target_precision = m.target_precision := by
    intro vs
    induction vs with
    | nil => intro m; simp [ConvergenceMonitor.updateAll]
    | cons v rest ih =>
        intro m
        have hrec := ih (m.update v).2
        have hstep := step m v
        constructor
        · rw [ConvergenceMonitor.updateAll, List.foldl_cons,
            ← ConvergenceMonitor.updateAll, hrec.1, hstep.1]
          simp [Nat.add_assoc, Nat.add_comm 1 rest.length]
        constructor
        · rw [ConvergenceMonitor.updateAll, List.foldl_cons,
            ← ConvergenceMonitor.updateAll, hrec.2.1, hstep.2.1]
          cases rest with
          | nil => simp
          | cons r0 rt =>
              rw [List.getLast?_cons_cons]
              cases hr : (r0 :: rt).getLast? with
              | none => simp at hr
              | some w => simp [Option.or]
        · rw [ConvergenceMonitor.updateAll, List.foldl_cons,
            ← ConvergenceMonitor.updateAll, hrec.2.2, hstep.2.2]
  intro p vs
  have h := general vs (ConvergenceMonitor.fresh p)
  refine ⟨?_, ?_, h.2.2⟩
  · rw [h.1]; simp [ConvergenceMonitor.fresh]
  · rw [h.2.1]; simp [ConvergenceMonitor.fresh]

/-- **C8.** Each generator iteration feeds
`x_next = 0.5 * (x_n + number / x_n)` to the monitor; on convergence it
yields `x_next` as the final element and terminates, otherwise it yields
`x_next` as an intermediate element and continues from it with the updated
monitor. -/
theorem generator_step_spec (number x : ℚ) (fuel : ℕ)
    (m : ConvergenceMonitor) (hx : x ≠ 0) :
    ((m.update ((1 / 2) * (x + number / x))).1 = true →
      generate_approximations number (fuel + 1) x m =
        .ok [(1 / 2) * (x + number / x)]) ∧
    ((m.update ((1 / 2) * (x + number / x))).1 = false →
      generate_approximations number (fuel + 1) x m =
        Except.map (fun rest => (1 / 2) * (x + number / x) :: rest)
          (generate_approximations number fuel
            ((1 / 2) * (x + number / x))
            (m.update ((1 / 2) * (x + number / x))).2)) :=
  ⟨gen_succ_true number x fuel m hx, gen_succ_false number x fuel m hx⟩

/-- Witness for `generator_step_spec` at `number = 16`, `x = 8` and a fresh
monitor: the first update does not converge, so the iterate `5` is yielded
and the run continues from it. -/
theorem generator_step_spec_witness :
    (8 : ℚ) ≠ 0 ∧
    (((ConvergenceMonitor.fresh (1 / 10 ^ 10)).update
        ((1 / 2) * (8 + 16 / 8))).1 = true →
      generate_approximations 16 (999 + 1) 8
          (ConvergenceMonitor.fresh (1 / 10 ^ 10)) =
        .ok [(1 / 2) * (8 + 16 / 8)]) ∧
    (((ConvergenceMonitor.fresh (1 / 10 ^ 10)).update
        ((1 / 2) * (8 + 16 / 8))).1 = false →
      generate_approximations 16 (999 + 1) 8
          (ConvergenceMonitor.fresh (1 / 10 ^ 10)) =
        Except.map (fun rest => (1 / 2) * (8 + 16 / 8) :: rest)
          (generate_approximations 16 999 ((1 / 2) * (8 + 16 / 8))
            (((ConvergenceMonitor.fresh (1 / 10 ^ 10)).update
              ((1 / 2) * (8 + 16 / 8))).2))) :=
  ⟨by norm_num,
   generator_step_spec 16 8 999 (ConvergenceMonitor.fresh (1 / 10 ^ 10))
     (by norm_num)⟩

/-- **C5.** A solver whose number is `0` gets `0` as its default initial
guess; running the generator from a guess of exactly `0` fails on the
first iteration with `ZeroDivisionError` — the raw arithmetic error, not
the `InvalidInput` domain error — and `solve` propagates it. -/
theorem zero_guess_division_spec (number p : ℚ) (mi : ℕ) (hmi : 1 ≤ mi) :
    construct 0 mi none = .ok ⟨0, mi, 0⟩ ∧
    generate_approximations number mi 0 (ConvergenceMonitor.fresh p) =
      .error .zeroDivision ∧
    solve ⟨number, mi, 0⟩ = .error .zeroDivision := by
  obtain ⟨f, rfl⟩ : ∃ f, mi = f + 1 := by
    cases mi with
    | zero => omega
    | succ f => exact ⟨f, rfl⟩
  refine ⟨?_, ?_, ?_⟩
  · show (if (0 : ℚ) < 0 then _ else _) = _
    norm_num
  · simp [generate_approximations]
  · exact solve_eq_of_gen_error ⟨number, f + 1, 0⟩ .zeroDivision
      (by simp [generate_approximations])

/-- Witness for `zero_guess_division_spec` at the defaults
(`number = 0`, `max_iterations = 1000`, precision `1e-10`). -/
theorem zero_guess_division_spec_witness :
    1 ≤ 1000 ∧
    (construct 0 1000 none = .ok ⟨0, 1000, 0⟩ ∧
     generate_approximations 0 1000 0
        (ConvergenceMonitor.fresh (1 / 10 ^ 10)) = .error .zeroDivision ∧
     solve ⟨0, 1000, 0⟩ = .error .zeroDivision) :=
  ⟨by norm_num, zero_guess_division_spec 0 (1 / 10 ^ 10) 1000 (by norm_num)⟩

/-- The full generator run for `number = 16`, `initial_guess = 8` at the
default precision: six Newton iterates, the last one converged. -/
lemma gen_run_16 :
    generate_approximations 16 1000 8
        (ConvergenceMonitor.fresh (1 / 10 ^ 10)) =
      .ok [5, 41 / 10, 3281 / 820, 21523361 / 5380840,
        926510094425921 / 231627523606480,
        1716841910146256242328924544641 / 429210477536564060582231136160] := by
  show generate_approximations 16 (999 + 1) 8 ⟨1 / 10 ^ 10, 0, none⟩ = _
  apply gen_step_none 16 8 5 _ _ 999 _ (by norm_num) (by norm_num)
  apply gen_step_far 16 5 (41 / 10) _ 5 _ 998 _ (by norm_num) (by norm_num)
    (by rw [abs_sub_lt_iff]; norm_num)
  apply gen_step_far 16 (41 / 10) (3281 / 820) _ (41 / 10) _ 997 _
    (by norm_num) (by norm_num) (by rw [abs_sub_lt_iff]; norm_num)
  apply gen_step_far 16 (3281 / 820) (21523361 / 5380840) _ (3281 / 820) _
    996 _ (by norm_num) (by norm_num) (by rw [abs_sub_lt_iff]; norm_num)
  apply gen_step_far 16 (21523361 / 5380840)
    (926510094425921 / 231627523606480) _ (21523361 / 5380840) _ 995 _
    (by norm_num) (by norm_num) (by rw [abs_sub_lt_iff]; norm_num)
  apply gen_step_conv 16 (926510094425921 / 231627523606480)
    (1716841910146256242328924544641 / 429210477536564060582231136160) _
    (926510094425921 / 231627523606480) _ 994 (by norm_num) (by norm_num)
    (by rw [abs_sub_lt_iff]; constructor <;> norm_num)

/-- The full generator run for `number = 2`, `initial_guess = 1` at the
default precision: five Newton iterates, the last one converged. -/
lemma gen_run_2 :
    generate_approximations 2 1000 1
        (ConvergenceMonitor.fresh (1 / 10 ^ 10)) =
      .ok [3 / 2, 17 / 12, 577 / 408, 665857 / 470832,
        886731088897 / 627013566048] := by
  show generate_approximations 2 (999 + 1) 1 ⟨1 / 10 ^ 10, 0, none⟩ = _
  apply gen_step_none 2 1 (3 / 2) _ _ 999 _ (by norm_num) (by norm_num)
  apply gen_step_far 2 (3 / 2) (17 / 12) _ (3 / 2) _ 998 _ (by norm_num)
    (by norm_num) (by rw [abs_sub_lt_iff]; norm_num)
  apply gen_step_far 2 (17 / 12) (577 / 408) _ (17 / 12) _ 997 _
    (by norm_num) (by norm_num) (by rw [abs_sub_lt_iff]; norm_num)
  apply gen_step_far 2 (577 / 408) (665857 / 470832) _ (577 / 408) _ 996 _
    (by norm_num) (by norm_num) (by rw [abs_sub_lt_iff]; norm_num)
  apply gen_step_conv 2 (665857 / 470832) (886731088897 / 627013566048) _
    (665857 / 470832) _ 995 (by norm_num) (by norm_num)
    (by rw [abs_sub_lt_iff]; constructor <;> norm_num)

/-- The full generator run for `number = 1`, `initial_guess = 1/2` at the
default precision: six Newton iterates, the last one converged. -/
lemma gen_run_1 :
    generate_approximations 1 1000 (1 / 2)
        (ConvergenceMonitor.fresh (1 / 10 ^ 10)) =
      .ok [5 / 4, 41 / 40, 3281 / 3280, 21523361 / 21523360,
        926510094425921 / 926510094425920,
        1716841910146256242328924544641 /
          1716841910146256242328924544640] := by
  show generate_approximations 1 (999 + 1) (1 / 2) ⟨1 / 10 ^ 10, 0, none⟩ = _
  apply gen_step_none 1 (1 / 2) (5 / 4) _ _ 999 _ (by norm_num) (by norm_num)
  apply gen_step_far 1 (5 / 4) (41 / 40) _ (5 / 4) _ 998 _ (by norm_num)
    (by norm_num) (by rw [abs_sub_lt_iff]; norm_num)
  apply gen_step_far 1 (41 / 40) (3281 / 3280) _ (41 / 40) _ 997 _
    (by norm_num) (by norm_num) (by rw [abs_sub_lt_iff]; norm_num)
  apply gen_step_far 1 (3281 / 3280) (21523361 / 21523360) _ (3281 / 3280) _
    996 _ (by norm_num) (by norm_num) (by rw [abs_sub_lt_iff]; norm_num)
  apply gen_step_far 1 (21523361 / 21523360)
    (926510094425921 / 926510094425920) _ (21523361 / 21523360) _ 995 _
    (by norm_num) (by norm_num) (by rw [abs_sub_lt_iff]; norm_num)
  apply gen_step_conv 1 (926510094425921 / 926510094425920)
    (1716841910146256242328924544641 / 1716841910146256242328924544640) _
    (926510094425921 / 926510094425920) _ 994 (by norm_num) (by norm_num)
    (by rw [abs_sub_lt_iff]; constructor <;> norm_num)

/-- **C9.** For `number = 16` with `initial_guess = 8` (and
`max_iterations = 1000`), the generator succeeds and its yielded
approximations strictly decrease, all stay above the true root `4`, and
the sequence has at most `max_iterations` elements. -/
theorem monotone_iteration_spec :
    ∃ s l, construct 16 1000 (some 8) = .ok s ∧
      generate_approximations s.number s.max_iterations s.initial_guess
        (ConvergenceMonitor.fresh (1 / 10 ^ 10)) = .ok l ∧
      l.Chain' (fun a b => b < a) ∧ (∀ y ∈ l, 4 < y) ∧
      l.length ≤ s.max_iterations := by
  refine ⟨⟨16, 1000, 8⟩, _, ?_, gen_run_16, ?_, ?_, ?_⟩
  · show (if (16 : ℚ) < 0 then _ else _) = _
    norm_num
  · norm_num [List.chain'_cons, List.chain'_singleton]
  · intro y hy
    fin_cases hy <;> norm_num
  · simp

/-- **C1 (amended).** With the defaults (`max_iterations = 1000`,
`initial_guess = number / 2`): for `number = 2` `solve` returns a value
within `1e-10` of `1.414213562373` squaring to within `1e-9` of `2`; for
`number = 16` it returns a value within `1e-9` of `4`; for `number = 1`
it returns a value within `1e-10` of `1` (exact arithmetic leaves it a
hair above `1`).  The claim's universal form over every `number > 0` is
refuted separately. -/
theorem solve_defaults_amended :
    (∃ s r, construct 2 1000 none = .ok s ∧ solve s = .ok r ∧
      |r * r - 2| < 1 / 10 ^ 9 ∧
      |r - 1414213562373 / 10 ^ 12| < 1 / 10 ^ 10) ∧
    (∃ s r, construct 16 1000 none = .ok s ∧ solve s = .ok r ∧
      |r * r - 16| < 1 / 10 ^ 9 ∧ |r - 4| < 1 / 10 ^ 9) ∧
    (∃ s r, construct 1 1000 none = .ok s ∧ solve s = .ok r ∧
      |r * r - 1| < 1 / 10 ^ 9 ∧ |r - 1| < 1 / 10 ^ 10) := by
  refine ⟨⟨⟨2, 1000, 1⟩, 886731088897 / 627013566048, ?_, ?_, ?_, ?_⟩,
    ⟨⟨16, 1000, 8⟩,
      1716841910146256242328924544641 / 429210477536564060582231136160,
      ?_, ?_, ?_, ?_⟩,
    ⟨⟨1, 1000, 1 / 2⟩,
      1716841910146256242328924544641 / 1716841910146256242328924544640,
      ?_, ?_, ?_, ?_⟩⟩
  · show (if (2 : ℚ) < 0 then _ else _) = _
    norm_num
  · exact solve_eq_of_gen ⟨2, 1000, 1⟩ _ _ gen_run_2 rfl
  · rw [abs_sub_lt_iff]; constructor <;> norm_num
  · rw [abs_sub_lt_iff]; constructor <;> norm_num
  · show (if (16 : ℚ) < 0 then _ else _) = _
    norm_num
  · exact solve_eq_of_gen ⟨16, 1000, 8⟩ _ _ gen_run_16 rfl
  · rw [abs_sub_lt_iff]; constructor <;> norm_num
  · rw [abs_sub_lt_iff]; constructor <;> norm_num
  · show (if (1 : ℚ) < 0 then _ else _) = _
    norm_num
  · exact solve_eq_of_gen ⟨1, 1000, 1 / 2⟩ _ _ gen_run_1 rfl
  · rw [abs_sub_lt_iff]; constructor <;> norm_num
  · rw [abs_sub_lt_iff]; constructor <;> norm_num

/-- With a positive number and a positive current value the generator
never raises and, given at least one unit of fuel, yields at least one
element. -/
lemma gen_pos_ok (number : ℚ) (hN : 0 < number) :
    ∀ (fuel : ℕ) (x : ℚ), 0 < x → ∀ (m : ConvergenceMonitor),
      ∃ l, generate_approximations number fuel x m = .ok l ∧
        (fuel ≠ 0 → l ≠ []) := by
  intro fuel
  induction fuel with
  | zero =>
      intro x _ m
      exact ⟨[], rfl, fun h => absurd rfl h⟩
  | succ f ih =>
      intro x hx m
      have hx0 : x ≠ 0 := ne_of_gt hx
      have hx' : 0 < (1 / 2) * (x + number / x) := by positivity
      cases hc : (m.update ((1 / 2) * (x + number / x))).1 with
      | true =>
          exact ⟨[(1 / 2) * (x + number / x)],
            gen_succ_true number x f m hx0 hc, by simp⟩
      | false =>
          obtain ⟨l, hl, _⟩ :=
            ih ((1 / 2) * (x + number / x)) hx'
              (m.update ((1 / 2) * (x + number / x))).2
          refine ⟨(1 / 2) * (x + number / x) :: l, ?_, by simp⟩
          rw [gen_succ_false number x f m hx0 hc, hl]
          rfl

/-- A one-unit-of-fuel successful generator run is never empty. -/
lemma gen_succ_ne_nil (number x : ℚ) (f : ℕ) (m : ConvergenceMonitor)
    (l : List ℚ)
    (hgen : generate_approximations number (f + 1) x m = .ok l) :
    l ≠ [] := by
  by_cases hx : x = 0
  · subst hx
    simp [generate_approximations] at hgen
  · cases hc : (m.update ((1 / 2) * (x + number / x))).1 with
    | true =>
        rw [gen_succ_true number x f m hx hc] at hgen
        cases hgen
        simp
    | false =>
        rw [gen_succ_false number x f m hx hc] at hgen
        cases hrec : generate_approximations number f
            ((1 / 2) * (x + number / x))
            (m.update ((1 / 2) * (x + number / x))).2 with
        | ok rest =>
            rw [hrec] at hgen
            cases hgen
            simp
        | error e =>
            rw [hrec] at hgen
            exact absurd hgen (by simp [Except.map])

/-- The generator never produces the `NoResult` error: only `solve`
raises it. -/
lemma gen_ne_noResult (number : ℚ) :
    ∀ (fuel : ℕ) (x : ℚ) (m : ConvergenceMonitor),
      generate_approximations number fuel x m ≠ .error .noResult := by
  intro fuel
  induction fuel with
  | zero =>
      intro x m h
      exact Except.noConfusion h
  | succ f ih =>
      intro x m
      by_cases hx : x = 0
      · subst hx
        simp [generate_approximations]
      · cases hc : (m.update ((1 / 2) * (x + number / x))).1 with
        | true =>
            rw [gen_succ_true number x f m hx hc]
            simp
        | false =>
            rw [gen_succ_false number x f m hx hc]
            cases hrec : generate_approximations number f
                ((1 / 2) * (x + number / x))
                (m.update ((1 / 2) * (x + number / x))).2 with
            | ok rest => simp [Except.map]
            | error e =>
                have hne := ih ((1 / 2) * (x + number / x))
                  (m.update ((1 / 2) * (x + number / x))).2
                rw [hrec] at hne
                simpa [Except.map] using hne

/-- The one-iteration run for `number = 100` from guess `50`: the single
Newton iterate `26` is yielded and the fuel is exhausted. -/
lemma gen_run_100 :
    generate_approximations 100 1 50
        (ConvergenceMonitor.fresh (1 / 10 ^ 10)) = .ok [26] := by
  show generate_approximations 100 (0 + 1) 50 ⟨1 / 10 ^ 10, 0, none⟩ = _
  exact gen_step_none 100 50 26 (1 / 10 ^ 10) 0 0 [] (by norm_num)
    (by norm_num) rfl

/-- **C6.** For a solver with positive number, positive initial guess and
at least one iteration, `solve` returns the last yielded approximation
with no error, whether or not the monitor ever reported convergence. -/
theorem solve_exhaustion_spec (s : OverEngineeredSquareRootSolver)
    (hN : 0 < s.number) (hg : 0 < s.initial_guess)
    (hmi : 1 ≤ s.max_iterations) :
    ∃ l r, generate_approximations s.number s.max_iterations s.initial_guess
        (ConvergenceMonitor.fresh (1 / 10 ^ 10)) = .ok l ∧ l ≠ [] ∧
      l.getLast? = some r ∧ solve s = .ok r := by
  obtain ⟨l, hl, hne⟩ := gen_pos_ok s.number hN s.max_iterations
    s.initial_guess hg (ConvergenceMonitor.fresh (1 / 10 ^ 10))
  have hne' : l ≠ [] := hne (by omega)
  have hr : l.getLast? = some (l.getLast hne') := List.getLast?_eq_getLast l hne'
  exact ⟨l, l.getLast hne', hl, hne', hr, solve_eq_of_gen s l _ hl hr⟩

/-- Witness for `solve_exhaustion_spec` at `number = 100`,
`max_iterations = 1`, `initial_guess = 50`: a value (the iterate `26`)
is returned even though the precision was not met. -/
theorem solve_exhaustion_spec_witness :
    ((0 : ℚ) < 100 ∧ (0 : ℚ) < 50 ∧ 1 ≤ 1) ∧
    (∃ l r, generate_approximations (100 : ℚ) 1 50
        (ConvergenceMonitor.fresh (1 / 10 ^ 10)) = .ok l ∧ l ≠ [] ∧
      l.getLast? = some r ∧ solve ⟨100, 1, 50⟩ = .ok r) ∧
    solve ⟨100, 1, 50⟩ = .ok 26 ∧ ¬ |(26 : ℚ) * 26 - 100| < 1 / 10 ^ 9 :=
  ⟨⟨by norm_num, by norm_num, le_refl 1⟩,
   solve_exhaustion_spec ⟨100, 1, 50⟩ (by norm_num) (by norm_num)
     (le_refl 1),
   solve_eq_of_gen ⟨100, 1, 50⟩ [26] 26 gen_run_100 rfl,
   by rw [abs_sub_lt_iff]; norm_num⟩

/-- **C7.** `solve` fails with `NoResult` exactly when the approximation
sequence is produced and empty; with at least one iteration any produced
sequence is non-empty, so the branch is unreachable. -/
theorem solve_noResult_spec (s : OverEngineeredSquareRootSolver) :
    (solve s = .error .noResult ↔
      generate_approximations s.number s.max_iterations s.initial_guess
        (ConvergenceMonitor.fresh (1 / 10 ^ 10)) = .ok []) ∧
    (∀ l, 1 ≤ s.max_iterations →
      generate_approximations s.number s.max_iterations s.initial_guess
        (ConvergenceMonitor.fresh (1 / 10 ^ 10)) = .ok l → l ≠ []) := by
  constructor
  · constructor
    · intro h
      cases hgen : generate_approximations s.number s.max_iterations
          s.initial_guess (ConvergenceMonitor.fresh (1 / 10 ^ 10)) with
      | error e =>
          rw [solve_eq_of_gen_error s e hgen] at h
          injection h with h'
          rw [h'] at hgen
          exact absurd hgen (gen_ne_noResult s.number s.max_iterations
            s.initial_guess (ConvergenceMonitor.fresh (1 / 10 ^ 10)))
      | ok l =>
          cases l with
          | nil => rfl
          | cons a as =>
              have hne : a :: as ≠ ([] : List ℚ) := by simp
              rw [solve_eq_of_gen s (a :: as) ((a :: as).getLast hne) hgen
                (List.getLast?_eq_getLast _ hne)] at h
              exact Except.noConfusion h
    · intro hgen
      unfold solve
      rw [hgen]
      rfl
  · intro l hmi hgen
    obtain ⟨f, hf⟩ : ∃ f, s.max_iterations = f + 1 :=
      ⟨s.max_iterations - 1, by omega⟩
    rw [hf] at hgen
    exact gen_succ_ne_nil s.number s.initial_guess f _ l hgen

/-- Witness for `solve_noResult_spec`: with zero iterations the sequence
is empty and `solve ⟨2, 0, 1⟩` hits `NoResult`; with one iteration the
run for `number = 100` from guess `50` produced the non-empty `[26]`. -/
theorem solve_noResult_spec_witness :
    ((solve ⟨2, 0, 1⟩ = .error .noResult ↔
      generate_approximations (2 : ℚ) 0 1
        (ConvergenceMonitor.fresh (1 / 10 ^ 10)) = .ok []) ∧
     solve ⟨2, 0, 1⟩ = .error .noResult) ∧
    (1 ≤ 1 ∧ [(26 : ℚ)] ≠ []) :=
  ⟨⟨(solve_noResult_spec ⟨2, 0, 1⟩).1,
    (solve_noResult_spec ⟨2, 0, 1⟩).1.mpr rfl⟩,
   le_refl 1,
   (solve_noResult_spec ⟨100, 1, 50⟩).2 [26] (le_refl 1) gen_run_100⟩

/-- When the current value is at least `2 ^ fuel * B` with `B ≥ 1` and
`B ^ 2 ≥ 4 * number`, every Newton step shrinks the value by at least
`3/4 ≥ p`, so the monitor never converges, the run uses all its fuel, and
every yielded element stays at least `B`. -/
lemma gen_diverges (number B p : ℚ) (hp : 0 < p) (hp34 : p ≤ 3 / 4) (hB : 1 ≤ B)
    (hBN : 4 * number ≤ B ^ 2) (hN : 0 ≤ number) :
    ∀ (fuel : ℕ) (x : ℚ) (c : ℕ) (prev : Option ℚ),
      (prev = none ∨ prev = some x) → 2 ^ fuel * B ≤ x →
      ∃ l, generate_approximations number fuel x ⟨p, c, prev⟩ = .ok l ∧
        l.length = fuel ∧ ∀ y ∈ l, B ≤ y := by
  intro fuel
  induction fuel with
  | zero =>
      intro x c prev _ _
      exact ⟨[], rfl, rfl, by simp⟩
  | succ f ih =>
      intro x c prev hprev hx
      have hB0 : (0 : ℚ) < B := lt_of_lt_of_le one_pos hB
      have h2f : (1 : ℚ) ≤ 2 ^ f := one_le_pow₀ (by norm_num)
      have h2f1 : (2 : ℚ) ≤ 2 ^ (f + 1) := by
        rw [pow_succ]
        nlinarith
      have hxB : B ≤ x :=
        le_trans (le_mul_of_one_le_left hB0.le (le_trans one_le_two h2f1)) hx
      have hx2 : (2 : ℚ) ≤ x := by
        have : (2 : ℚ) * 1 ≤ 2 ^ (f + 1) * B :=
          mul_le_mul h2f1 hB (by norm_num) (by positivity)
        linarith
      have hx0 : (0 : ℚ) < x := lt_of_lt_of_le two_pos hx2
      have hxsq : 4 * number ≤ x ^ 2 :=
        le_trans hBN (pow_le_pow_left₀ hB0.le hxB 2)
      have hgx : x / 2 ≤ (1 / 2) * (x + number / x) := by
        have hdiv : 0 ≤ number / x := div_nonneg hN hx0.le
        linarith
      have hx'bound : 2 ^ f * B ≤ (1 / 2) * (x + number / x) := by
        have hsplit : (2 : ℚ) ^ (f + 1) * B = 2 * (2 ^ f * B) := by ring
        rw [hsplit] at hx
        linarith
      have hx'B : B ≤ (1 / 2) * (x + number / x) :=
        le_trans (le_mul_of_one_le_left hB0.le h2f) hx'bound
      have hdelta : p ≤ x - (1 / 2) * (x + number / x) := by
        have hxx : x - (1 / 2) * (x + number / x) =
            (x ^ 2 - number) / (2 * x) := by
          field_simp
          ring
        rw [hxx, le_div_iff₀ (by positivity)]
        nlinarith [mul_nonneg (sub_nonneg.mpr hp34) hx0.le,
          mul_nonneg (by linarith : (0 : ℚ) ≤ x - 2) hx0.le]
      have hfar : ¬ |(1 / 2) * (x + number / x) - x| < p := by
        rw [abs_sub_comm,
          abs_of_nonneg (by linarith : (0 : ℚ) ≤
            x - (1 / 2) * (x + number / x))]
        exact not_lt.mpr hdelta
      obtain ⟨l, hl, hlen, helem⟩ :=
        ih ((1 / 2) * (x + number / x)) (c + 1)
          (some ((1 / 2) * (x + number / x))) (Or.inr rfl) hx'bound
      have hcons : ∀ y ∈ (1 / 2) * (x + number / x) :: l, B ≤ y := by
        intro y hy
        rcases List.mem_cons.mp hy with rfl | hy'
        · exact hx'B
        · exact helem y hy'
      rcases hprev with rfl | rfl
      · exact ⟨(1 / 2) * (x + number / x) :: l,
          gen_step_none number x _ p c f l (ne_of_gt hx0) rfl hl,
          by simp [hlen], hcons⟩
      · exact ⟨(1 / 2) * (x + number / x) :: l,
          gen_step_far number x _ p x c f l (ne_of_gt hx0) rfl hfar hl,
          by simp [hlen], hcons⟩

/-- **C1 (counterexample).** The claim's universal statement fails: for
`number = 2 ^ 4000 > 0` with the defaults, the initial guess `2 ^ 3999`
is halved for all `1000` iterations without ever approaching the root
`2 ^ 2000`, and `solve` returns a value whose square misses `number` by
far more than `1e-9`. -/
theorem solve_universal_counterexample :
    (0 : ℚ) < 2 ^ 4000 ∧
    ∃ s r, construct (2 ^ 4000) 1000 none = .ok s ∧ solve s = .ok r ∧
      ¬ |r * r - 2 ^ 4000| < 1 / 10 ^ 9 := by
  obtain ⟨l, hl, hlen, helem⟩ :=
    gen_diverges (2 ^ 4000) (2 ^ 2001) (1 / 10 ^ 10) (by norm_num)
      (by norm_num) (by norm_num) (by norm_num) (by positivity) 1000 (2 ^ 4000 / 2) 0
      none (Or.inl rfl) (by norm_num)
  have hne : l ≠ [] := by
    intro h
    rw [h] at hlen
    exact absurd hlen.symm (by norm_num)
  have hr : l.getLast? = some (l.getLast hne) := List.getLast?_eq_getLast l hne
  have hrB : (2 : ℚ) ^ 2001 ≤ l.getLast hne := helem _ (List.getLast_mem hne)
  refine ⟨by positivity, ⟨2 ^ 4000, 1000, 2 ^ 4000 / 2⟩, l.getLast hne,
    ?_, solve_eq_of_gen ⟨2 ^ 4000, 1000, 2 ^ 4000 / 2⟩ l _ hl hr, ?_⟩
  · show (if (2 ^ 4000 : ℚ) < 0 then _ else _) = _
    rw [if_neg (by norm_num : ¬((2 : ℚ) ^ 4000 < 0))]
    rfl
  · have hsq : (2 : ℚ) ^ 4002 ≤ l.getLast hne * l.getLast hne := by
      have := mul_le_mul hrB hrB (by positivity)
        (le_trans (by positivity) hrB)
      calc (2 : ℚ) ^ 4002 = 2 ^ 2001 * 2 ^ 2001 := by ring
        _ ≤ _ := this
    have h4 : (2 : ℚ) ^ 4002 = 4 * 2 ^ 4000 := by ring
    have hbig : (1 : ℚ) / 10 ^ 9 ≤ 3 * 2 ^ 4000 := by norm_num
    have hnn : (0 : ℚ) ≤ l.getLast hne * l.getLast hne - 2 ^ 4000 := by
      nlinarith
    rw [abs_of_nonneg hnn]
    apply not_lt.mpr
    nlinarith

end SquareRoot
